import Mathlib

/-!
# Verification of the `aw` gossip-overlay core against its specification

Shallow embedding of the parts of the repository that the claims touch:

* `handshake` (src/experiment/channel/channel.go): the `xor` session-key
  combiner used by `Handshake` / `AcceptHandshake`.
* `pingpong` (src/unnamed/part_000, package `pingpong`): `AcceptPing`,
  `AcceptPong`, `propagatePing`, `updatePeerAddress`.
* `testutil` (src/unnamed/part_000, package `testutil`): `RandomMessage`.
* `peer` (src/unnamed/part_001, package `aw`): `bootstrap` (worker pool and
  per-ping timeout) and `receiveMessageOnTheWire` (dispatch).

Bytes are modelled as `Nat` (each < 256 where that matters), byte slices as
`List Nat`.  Go's `int64` arithmetic is modelled with wraparound made
explicit.  Fallible Go code returns `Option`/`Except`; a Go runtime panic
(index out of range) is modelled by `none`.
-/

namespace AW

/-! ## Handshake: the xor session-key combiner

Embeds `func xor(k1, k2 []byte) []byte` from
src/experiment/channel/channel.go lines 215-221.  The Go loop runs over the
indices of `k1` and reads `k2[i]`; when `len(k2) < len(k1)` the access
`k2[i]` at `i = len(k2)` panics with an index-out-of-range error.  The
embedding walks both lists in lockstep over `k1`'s indices and returns
`none` exactly when `k2` is exhausted before `k1`, modelling the panic. -/

def xorGo : List Nat → List Nat → Option (List Nat)
  | [], _ => some []
  | _ :: _, [] => none
  | a :: k1, b :: k2 => (xorGo k1 k2).map (fun r => (a ^^^ b) :: r)

/-- Initiator side (`ecdsaHandshaker.Handshake`, channel.go line 101):
`NewGCMSession(xor(clientKey[:], serverKey), ...)` where `clientKey` is the
locally generated 32-byte half and `serverKey` the decrypted remote half. -/
def initiatorSessionKey (clientKey serverKey : List Nat) : Option (List Nat) :=
  xorGo clientKey serverKey

/-- Responder side (`ecdsaHandshaker.AcceptHandshake`, channel.go line 143):
`NewGCMSession(xor(clientKey, serverKey[:]), ...)` where `clientKey` is the
decrypted remote half and `serverKey` the locally generated 32-byte half. -/
def responderSessionKey (clientKey serverKey : List Nat) : Option (List Nat) :=
  xorGo clientKey serverKey

/-! ## Protocol data model

The `protocol` package is not under src/ (only its users are): its types and
constants are modelled from the spec where noted.  PeerIds are opaque with
byte equality, so a `Nat` models one; byte strings are `List Nat`. -/

/-- Modelled from the spec: the `protocol` package's message-version
constant `V1` ("currently a single supported value, call it V1") is not
under src/.  Its concrete numeric value is irrelevant to the claims. -/
def V1 : Nat := 1

/-- Modelled from the spec: the `protocol` package's variant constants
(`variant ∈ {Ping, Pong, Cast, Multicast, Broadcast}`) are not under src/.
Only their pairwise distinctness matters to the claims; the concrete values
follow the test in src/unnamed/part_001 which draws valid variants from
`(x % 5) + 1`. -/
def Ping : Nat := 1

def Pong : Nat := 2

def Cast : Nat := 3

def Multicast : Nat := 4

def Broadcast : Nat := 5

/-- Modelled from the spec: `group_id` is a fixed-width (32-byte)
identifier with a sentinel "nil group" (`protocol.NilPeerGroupID`) used for
Ping/Pong/Cast/Broadcast. -/
def NilPeerGroupID : List Nat := List.replicate 32 0

/-- `protocol.Message` (spec section 3): length, version, variant,
group id, body. -/
structure Message where
  length : Nat
  version : Nat
  variant : Nat
  groupID : List Nat
  body : List Nat
deriving DecidableEq, Repr

/-- Modelled from the spec: `protocol.NewMessage` (not under src/) builds a
Message whose `length` is the header size — 8 bytes for the nil group, 40
bytes with a group id — plus the body length. -/
def NewMessage (version variant : Nat) (groupID : List Nat) (body : List Nat) :
    Message :=
  { length := (if groupID = NilPeerGroupID then 8 else 40) + body.length
    version := version
    variant := variant
    groupID := groupID
    body := body }

/-- `PeerAddress` (spec section 3): a record exposing a `PeerId` and a
network locator; two addresses with the same PeerId may differ in locator. -/
structure PeerAddress where
  pid : Nat
  locator : List Nat
deriving DecidableEq, Repr

/-- `protocol.MessageOnTheWire`: a Message paired with a destination
address (the cancellation token is modelled separately, as a `ctxDone`
flag threaded through the handlers). -/
structure MessageOnTheWire where
  To : PeerAddress
  message : Message
deriving DecidableEq, Repr

/-- `protocol.Event`: the `PeerChanged` variant carries the updated
address (the wall-clock `Time` field is not modelled). -/
inductive Event where
  | peerChanged (addr : PeerAddress)
deriving DecidableEq, Repr

/-- `protocol.PeerAddressCodec`: `Encode`/`Decode` between addresses and
bytes.  Decoding is fallible; the embedding models encoding as total (its
error path is not exercised by any claim). -/
structure Codec where
  enc : PeerAddress → List Nat
  dec : List Nat → Option PeerAddress

/-- Errors returned by the embedded pingpong/peer code, one constructor per
distinct error construction site in the source. -/
inductive PPErr where
  /-- `protocol.NewErrMessageVersionIsNotSupported(message.Version)` -/
  | versionNotSupported (v : Nat)
  /-- `protocol.NewErrMessageVariantIsNotSupported(message.Variant)` -/
  | variantNotSupported (v : Nat)
  /-- `newErrDecodingMessage(err, variant, message.Body)` -/
  | decoding (variant : Nat) (body : List Nat)
  /-- `newStorageErr(err)` wrapping an inner error -/
  | storageWrap (e : PPErr)
  /-- `fmt.Errorf("dht has zero address.")` in `propagatePing` -/
  | dhtZeroAddresses
  /-- `ctx.Err()`: the cancellation token fired -/
  | canceled
  /-- `fmt.Errorf("unexpected message variant=%v", ...)` in
  `peer.receiveMessageOnTheWire` -/
  | unexpectedVariant (v : Nat)
deriving DecidableEq, Repr

/-! ## DHT

The `dht` package is not under src/; `DHT.updatePeerAddress` is modelled
from the spec (section 4.5).  The table maps PeerIds to addresses; lookups
and snapshots are over the stored records. -/

/-- The DHT state: the fixed self-address `Me` and the peer table. -/
structure DHT where
  me : PeerAddress
  table : List (Nat × PeerAddress)
deriving Repr

/-- `dht.PeerAddresses()`: a snapshot of the stored peer addresses. -/
def DHT.peerAddresses (d : DHT) : List PeerAddress :=
  d.table.map Prod.snd

/-- Modelled from the spec: `dht.UpdatePeerAddress(addr)` (section 4.5) —
returns `true` if the mapping was inserted or overwritten with different
content, `false` if the stored record is byte-identical to the serialized
input; updating with the self PeerId is a no-op returning `false`.  Storage
errors are not modelled (the backing store is in-memory and error-free). -/
def DHT.updatePeerAddress (c : Codec) (d : DHT) (a : PeerAddress) :
    Bool × DHT :=
  if a.pid = d.me.pid then (false, d)
  else
    match (d.table.lookup a.pid : Option PeerAddress) with
    | some old =>
        if c.enc old = c.enc a then (false, d)
        else
          let t := d.table.map (fun p => if p.1 = a.pid then (a.pid, a) else p)
          (true, { d with table := t })
    | none => (true, { d with table := d.table ++ [(a.pid, a)] })

/-! ## PingPonger (src/unnamed/part_000, package pingpong)

The pingponger's observable state: the DHT it was injected with, the
outbound message channel (`pp.messages`, modelled as the list of enqueued
`MessageOnTheWire`s) and the event channel (`pp.events`, the list of
emitted events).  Go's `ctx` is modelled by a `ctxDone` flag: every
`select` between `ctx.Done()` and a channel send succeeds when the flag is
`false` and takes the `ctx.Done()` branch when it is `true`. -/

structure PPState where
  dht : DHT
  outbox : List MessageOnTheWire
  events : List Event
deriving Repr

/-- `pingPonger.updatePeerAddress` (part_000 lines 245-261): update the
DHT; when nothing changed (or on error) return without emitting; otherwise
emit `EventPeerChanged` (the select's `ctx.Done()` branch returns
`false, ctx.Err()`, modelled as the error case). -/
def pingPonger.updatePeerAddress (c : Codec) (ctxDone : Bool) (st : PPState)
    (peerAddr : PeerAddress) : Except PPErr Bool × PPState :=
  let r := st.dht.updatePeerAddress c peerAddr
  let st' := { st with dht := r.2 }
  if !r.1 then (.ok false, st')
  else if ctxDone then (.error .canceled, st')
  else (.ok true, { st' with events := st'.events ++ [.peerChanged peerAddr] })

/-- `pingPonger.pong` (part_000 lines 197-212): enqueue a Pong whose body
is the encoded self-address, unless the context is done. -/
def pingPonger.pong (c : Codec) (ctxDone : Bool) (st : PPState)
    (To : PeerAddress) : Except PPErr Unit × PPState :=
  let me := c.enc st.dht.me
  if ctxDone then (.error .canceled, st)
  else
    let w : MessageOnTheWire := ⟨To, NewMessage V1 Pong NilPeerGroupID me⟩
    (.ok (), { st with outbox := st.outbox ++ [w] })

/-- The `for` loop of `pingPonger.propagatePing` (part_000 lines 225-239)
with its mutable `err` variable: skip the sender, otherwise enqueue a Ping
carrying `body` (or record `ctx.Err()` when the context is done).  Returns
the final `err` and the messages enqueued, in order. -/
def pingPonger.propagateLoop (ctxDone : Bool) (sender : Nat)
    (body : List Nat) (err : Option PPErr) :
    List PeerAddress → Option PPErr × List MessageOnTheWire
  | [] => (err, [])
  | addr :: rest =>
    if addr.pid = sender then
      pingPonger.propagateLoop ctxDone sender body err rest
    else if ctxDone then
      pingPonger.propagateLoop ctxDone sender body (some .canceled) rest
    else
      let r := pingPonger.propagateLoop ctxDone sender body err rest
      (r.1, ⟨addr, NewMessage V1 Ping NilPeerGroupID body⟩ :: r.2)

/-- `pingPonger.propagatePing` (part_000 lines 214-243): snapshot the DHT,
fail when it is empty, send to every non-sender peer, and return the last
error (nil when no send failed). -/
def pingPonger.propagatePing (ctxDone : Bool) (st : PPState) (sender : Nat)
    (body : List Nat) : Except PPErr Unit × PPState :=
  let peerAddrs := st.dht.peerAddresses
  if peerAddrs.length = 0 then (.error .dhtZeroAddresses, st)
  else
    let r := pingPonger.propagateLoop ctxDone sender body none peerAddrs
    (match r.1 with
      | none => .ok ()
      | some e => .error e,
     { st with outbox := st.outbox ++ r.2 })

/-- `pingPonger.AcceptPing` (part_000 lines 143-176): version and variant
checks, body decode, self filter, DHT update with early return on no-op,
then Pong and propagation. -/
def pingPonger.acceptPing (c : Codec) (ctxDone : Bool) (st : PPState)
    (m : Message) : Except PPErr Unit × PPState :=
  if m.version ≠ V1 then (.error (.versionNotSupported m.version), st)
  else if m.variant ≠ Ping then (.error (.variantNotSupported m.variant), st)
  else
    match c.dec m.body with
    | none => (.error (.decoding Ping m.body), st)
    | some peerAddr =>
      if peerAddr.pid = st.dht.me.pid then (.ok (), st)
      else
        match pingPonger.updatePeerAddress c ctxDone st peerAddr with
        | (.error e, st') => (.error e, st')
        | (.ok false, st') => (.ok (), st')
        | (.ok true, st') =>
          match pingPonger.pong c ctxDone st' peerAddr with
          | (.error e, st'') => (.error e, st'')
          | (.ok _, st'') =>
            pingPonger.propagatePing ctxDone st'' peerAddr.pid m.body

/-- `pingPonger.AcceptPong` (part_000 lines 178-195): version and variant
checks, body decode, DHT update with storage-error wrapping. -/
def pingPonger.acceptPong (c : Codec) (ctxDone : Bool) (st : PPState)
    (m : Message) : Except PPErr Unit × PPState :=
  if m.version ≠ V1 then (.error (.versionNotSupported m.version), st)
  else if m.variant ≠ Pong then (.error (.variantNotSupported m.variant), st)
  else
    match c.dec m.body with
    | none => (.error (.decoding Pong m.body), st)
    | some peerAddr =>
      match pingPonger.updatePeerAddress c ctxDone st peerAddr with
      | (.error e, st') => (.error (.storageWrap e), st')
      | (.ok _, st') => (.ok (), st')

/-! ## Peer supervisor (src/unnamed/part_001, package aw) -/

/-- Which handler `peer.receiveMessageOnTheWire` hands the message to. -/
inductive DispatchTarget where
  | acceptPing
  | acceptPong
  | acceptBroadcast
  | acceptMulticast
  | acceptCast
deriving DecidableEq, Repr

/-- `peer.receiveMessageOnTheWire` (part_001 lines 206-221): the switch on
`messageOtw.Message.Variant`; the default branch calls no handler and
fails with "unexpected message variant". -/
def receiveMessageOnTheWire (m : Message) : Except PPErr DispatchTarget :=
  if m.variant = Ping then .ok .acceptPing
  else if m.variant = Pong then .ok .acceptPong
  else if m.variant = Broadcast then .ok .acceptBroadcast
  else if m.variant = Multicast then .ok .acceptMulticast
  else if m.variant = Cast then .ok .acceptCast
  else .error (.unexpectedVariant m.variant)

/-- `peer.bootstrap` (part_001 lines 160-204): the peer addresses whose
PeerIds get pinged in one sweep.  The queue is a buffered FIFO channel
holding all of `peerAddrs`, closed once filled; `phi.ForAll` runs the
worker body exactly once per worker index, and the body performs a single
channel receive (returning immediately when the closed channel is
exhausted) followed by one `Ping`.  Hence the addresses received — in queue
order — are the first `min(W, N)` loaded ones, i.e. `peerAddrs.take W`. -/
def bootstrapPings (W : Nat) (peerAddrs : List PeerAddress) : List Nat :=
  (peerAddrs.take W).map PeerAddress.pid

/-- Two's-complement wraparound of Go `int64` arithmetic. -/
def wrap64 (n : Int) : Int := (n + 2 ^ 63) % 2 ^ 64 - 2 ^ 63

/-- The per-ping timeout of `peer.bootstrap` (part_001 lines 182-194), in
nanoseconds: `time.Duration(int64(W) * int64(D) / int64(N))` — an `int64`
product (which wraps) followed by Go's truncated division — then capped at
`D`, capped at 30 s, and floored at 1 s, in that order. -/
def pingTimeout (W D N : Int) : Int :=
  let t0 := Int.tdiv (wrap64 (W * D)) N
  let t1 := if t0 > D then D else t0
  let t2 := if t1 > 30 * 10 ^ 9 then 30 * 10 ^ 9 else t1
  if t2 < 10 ^ 9 then 10 ^ 9 else t2

/-- The spec's timeout formula (section 4.1):
`clamp(W × bootstrap_period / N, 1s, min(bootstrap_period, 30s))` in exact
integer nanosecond arithmetic, i.e. `max(1s, min(W*D/N, D, 30s))`. -/
def specPingTimeout (W D N : Int) : Int :=
  max (10 ^ 9) (min (Int.tdiv (W * D) N) (min D (30 * 10 ^ 9)))

/-! ## testutil (src/unnamed/part_000, package testutil) -/

/-- `testutil.RandomMessage` (part_000 lines 66-81) as a function of its
random draws: `body` models `RandomMessageBody()` and `g` models
`RandomPeerGroupID()` (drawn only for the Multicast and Broadcast
branches).  Header length is 8 with the nil group, 40 with `g`. -/
def RandomMessage (version variant : Nat) (body g : List Nat) : Message :=
  if variant = Multicast ∨ variant = Broadcast then
    { length := 40 + body.length
      version := version
      variant := variant
      groupID := g
      body := body }
  else
    { length := 8 + body.length
      version := version
      variant := variant
      groupID := NilPeerGroupID
      body := body }

/-! ## Concrete fixtures used by the witness theorems -/

/-- A concrete peer-address codec: the PeerId followed by the locator
bytes.  Used only to instantiate the codec-generic theorems. -/
def sampleCodec : Codec :=
  { enc := fun a => a.pid :: a.locator
    dec := fun b =>
      match b with
      | [] => none
      | p :: l => some ⟨p, l⟩ }

def sampleMe : PeerAddress := ⟨10, [0]⟩

def samplePeerA : PeerAddress := ⟨1, [1]⟩

def samplePeerB : PeerAddress := ⟨2, [2]⟩

def sampleSt : PPState :=
  { dht := { me := sampleMe, table := [(1, samplePeerA), (2, samplePeerB)] }
    outbox := []
    events := [] }

end AW

/-! ## Helper lemmas -/

namespace AW

theorem xorGo_eq_some (k1 k2 : List Nat) (h : k1.length ≤ k2.length) :
    xorGo k1 k2 = some (List.zipWith (fun a b => a ^^^ b) k1 k2) := by
  induction k1 generalizing k2 with
  | nil => simp [xorGo]
  | cons a k1 ih =>
    cases k2 with
    | nil => simp at h
    | cons b k2 =>
      simp only [List.length_cons, Nat.succ_le_succ_iff] at h
      simp [xorGo, ih k2 h]

theorem xorGo_eq_none (k1 k2 : List Nat) (h : k2.length < k1.length) :
    xorGo k1 k2 = none := by
  induction k1 generalizing k2 with
  | nil => simp at h
  | cons a k1 ih =>
    cases k2 with
    | nil => rfl
    | cons b k2 =>
      simp only [List.length_cons, Nat.succ_lt_succ_iff] at h
      simp [xorGo, ih k2 h]

theorem xorGo_comm (k1 k2 : List Nat) (h : k1.length = k2.length) :
    xorGo k1 k2 = xorGo k2 k1 := by
  induction k1 generalizing k2 with
  | nil => cases k2 with
    | nil => rfl
    | cons b k2 => simp at h
  | cons a k1 ih =>
    cases k2 with
    | nil => simp at h
    | cons b k2 =>
      simp only [List.length_cons, Nat.succ.injEq] at h
      simp [xorGo, ih k2 h, Nat.xor_comm a b]

/-- A DHT update that reports "not updated" leaves the table untouched. -/
theorem DHT.updatePeerAddress_false (c : Codec) (d : DHT) (a : PeerAddress)
    (h : (d.updatePeerAddress c a).1 = false) :
    (d.updatePeerAddress c a).2 = d := by
  by_cases h1 : a.pid = d.me.pid
  · simp [DHT.updatePeerAddress, h1]
  · cases hl : d.table.lookup a.pid with
    | none => simp [DHT.updatePeerAddress, h1, hl] at h
    | some old =>
      by_cases h2 : c.enc old = c.enc a
      · simp [DHT.updatePeerAddress, h1, hl, h2]
      · simp [DHT.updatePeerAddress, h1, hl, h2] at h

/-- The propagation loop with the context alive: the final `err` is the
incoming one and the messages sent are one Ping per non-sender address, in
snapshot order. -/
theorem propagateLoop_ctx_alive (sender : Nat) (body : List Nat)
    (err : Option PPErr) (l : List PeerAddress) :
    pingPonger.propagateLoop false sender body err l =
      (err, (l.filter (fun a => a.pid != sender)).map
        (fun a => ⟨a, NewMessage V1 Ping NilPeerGroupID body⟩)) := by
  induction l with
  | nil => rfl
  | cons a rest ih =>
    by_cases h : a.pid = sender
    · simp [pingPonger.propagateLoop, h, ih]
    · simp [pingPonger.propagateLoop, h, ih]

/-- The propagation loop with the context done: nothing is enqueued, and
the final `err` is `ctx.Err()` as soon as one non-sender address exists. -/
theorem propagateLoop_ctx_done (sender : Nat) (body : List Nat)
    (err : Option PPErr) (l : List PeerAddress) :
    pingPonger.propagateLoop true sender body err l =
      (if l.all (fun a => a.pid == sender) then err else some .canceled, []) := by
  induction l generalizing err with
  | nil => rfl
  | cons a rest ih =>
    by_cases h : a.pid = sender
    · simp [pingPonger.propagateLoop, h, ih]
    · simp [pingPonger.propagateLoop, h, ih]

end AW

/-- C1: For every pair of 32-byte half-keys, the initiator's `Handshake` and
the responder's `AcceptHandshake` derive bitwise-equal 32-byte session keys:
both sides compute `xor(clientKey, serverKey)` over the same two halves, and
`xor` is commutative on equal-length inputs. -/
theorem C1_handshake_session_keys_equal (clientKey serverKey : List Nat)
    (hc : clientKey.length = 32) (hs : serverKey.length = 32) :
    AW.initiatorSessionKey clientKey serverKey
        = AW.responderSessionKey clientKey serverKey ∧
    AW.xorGo clientKey serverKey = AW.xorGo serverKey clientKey ∧
    ∃ k, AW.initiatorSessionKey clientKey serverKey = some k ∧ k.length = 32 := by
  refine ⟨rfl, AW.xorGo_comm _ _ (hc.trans hs.symm), ?_⟩
  rw [AW.initiatorSessionKey, AW.xorGo_eq_some _ _ (by omega)]
  exact ⟨_, rfl, by rw [List.length_zipWith]; omega⟩

theorem C1_witness :
    (List.replicate 32 7).length = 32 ∧ (List.replicate 32 9).length = 32 ∧
    (AW.initiatorSessionKey (List.replicate 32 7) (List.replicate 32 9)
        = AW.responderSessionKey (List.replicate 32 7) (List.replicate 32 9) ∧
     AW.xorGo (List.replicate 32 7) (List.replicate 32 9)
        = AW.xorGo (List.replicate 32 9) (List.replicate 32 7) ∧
     ∃ k, AW.initiatorSessionKey (List.replicate 32 7) (List.replicate 32 9)
        = some k ∧ k.length = 32) :=
  ⟨by decide, by decide,
    C1_handshake_session_keys_equal _ _ (by decide) (by decide)⟩

/-- C10: `xor(k1, k2)` indexes `k2` out of range whenever `len(k2) < len(k1)`
(the embedding returns `none`, modelling the Go panic).  Consequently an
initiator `Handshake` whose decrypted remote half-key is shorter than 32
bytes hits the out-of-range access instead of returning an error, and a
responder `AcceptHandshake` with a short remote half-key produces a session
key shorter than 32 bytes. -/
theorem C10_xor_out_of_range (k1 k2 clientShort serverShort : List Nat)
    (hk : k2.length < k1.length)
    (hc : clientShort.length < 32) (hs : serverShort.length < 32) :
    AW.xorGo k1 k2 = none ∧
    (∀ clientKey : List Nat, clientKey.length = 32 →
      AW.initiatorSessionKey clientKey serverShort = none) ∧
    (∀ serverKey : List Nat, serverKey.length = 32 →
      ∃ k, AW.responderSessionKey clientShort serverKey = some k ∧
        k.length = clientShort.length ∧ k.length < 32) := by
  refine ⟨AW.xorGo_eq_none _ _ hk, ?_, ?_⟩
  · intro clientKey hck
    exact AW.xorGo_eq_none _ _ (by omega)
  · intro serverKey hsk
    rw [AW.responderSessionKey, AW.xorGo_eq_some _ _ (by omega)]
    exact ⟨_, rfl, by rw [List.length_zipWith]; omega,
      by rw [List.length_zipWith]; omega⟩

theorem C10_witness :
    [0, 0].length < [1, 2, 3].length ∧
    (List.replicate 5 1).length < 32 ∧ (List.replicate 5 2).length < 32 ∧
    (AW.xorGo [1, 2, 3] [0, 0] = none ∧
     (∀ clientKey : List Nat, clientKey.length = 32 →
       AW.initiatorSessionKey clientKey (List.replicate 5 2) = none) ∧
     (∀ serverKey : List Nat, serverKey.length = 32 →
       ∃ k, AW.responderSessionKey (List.replicate 5 1) serverKey = some k ∧
         k.length = (List.replicate 5 1).length ∧ k.length < 32)) :=
  ⟨by decide, by decide, by decide,
    C10_xor_out_of_range [1, 2, 3] [0, 0] (List.replicate 5 1)
      (List.replicate 5 2) (by decide) (by decide) (by decide)⟩

/-- C3: A V1 Ping whose body decodes to this node's own address is accepted
with success and has no effect: the DHT is not updated, no `PeerChanged`
event is emitted, no Pong is enqueued and no propagation happens (the whole
pingponger state is unchanged). -/
theorem C3_accept_ping_self_noop (c : AW.Codec) (ctxDone : Bool)
    (st : AW.PPState) (m : AW.Message) (a : AW.PeerAddress)
    (hv : m.version = AW.V1) (hvar : m.variant = AW.Ping)
    (hdec : c.dec m.body = some a) (hself : a.pid = st.dht.me.pid) :
    AW.pingPonger.acceptPing c ctxDone st m = (.ok (), st) := by
  simp [AW.pingPonger.acceptPing, hv, hvar, hdec, hself]

theorem C3_witness :
    (AW.NewMessage AW.V1 AW.Ping AW.NilPeerGroupID [10, 0]).version = AW.V1 ∧
    (AW.NewMessage AW.V1 AW.Ping AW.NilPeerGroupID [10, 0]).variant = AW.Ping ∧
    AW.sampleCodec.dec
      (AW.NewMessage AW.V1 AW.Ping AW.NilPeerGroupID [10, 0]).body
      = some AW.sampleMe ∧
    AW.sampleMe.pid = AW.sampleSt.dht.me.pid ∧
    AW.pingPonger.acceptPing AW.sampleCodec false AW.sampleSt
      (AW.NewMessage AW.V1 AW.Ping AW.NilPeerGroupID [10, 0])
      = (.ok (), AW.sampleSt) :=
  ⟨rfl, rfl, rfl, rfl,
    C3_accept_ping_self_noop AW.sampleCodec false AW.sampleSt _ AW.sampleMe
      rfl rfl rfl rfl⟩

/-- C4: For a valid V1 Ping decoding to a non-self address, if the DHT
update reports no change then `AcceptPing` returns success with no Pong and
no propagation (the state is unchanged); conversely, any enqueued outbound
message implies the update actually changed the DHT. -/
theorem C4_accept_ping_noop_update (c : AW.Codec) (ctxDone : Bool)
    (st : AW.PPState) (m : AW.Message) (a : AW.PeerAddress)
    (hv : m.version = AW.V1) (hvar : m.variant = AW.Ping)
    (hdec : c.dec m.body = some a) (hnself : ¬ a.pid = st.dht.me.pid) :
    ((st.dht.updatePeerAddress c a).1 = false →
      AW.pingPonger.acceptPing c ctxDone st m = (.ok (), st)) ∧
    ((AW.pingPonger.acceptPing c ctxDone st m).2.outbox ≠ st.outbox →
      (st.dht.updatePeerAddress c a).1 = true) := by
  have key : (st.dht.updatePeerAddress c a).1 = false →
      AW.pingPonger.acceptPing c ctxDone st m = (.ok (), st) := by
    intro hupd
    have hfix := AW.DHT.updatePeerAddress_false c st.dht a hupd
    have hupd2 : AW.pingPonger.updatePeerAddress c ctxDone st a
        = (.ok false, st) := by
      simp [AW.pingPonger.updatePeerAddress, hupd, hfix]
    simp [AW.pingPonger.acceptPing, hv, hvar, hdec, hnself, hupd2]
  refine ⟨key, ?_⟩
  intro houtbox
  cases hupd : (st.dht.updatePeerAddress c a).1 with
  | false => exact absurd (by rw [key hupd]) houtbox
  | true => rfl

theorem C4_witness :
    (AW.NewMessage AW.V1 AW.Ping AW.NilPeerGroupID [1, 1]).version = AW.V1 ∧
    (AW.NewMessage AW.V1 AW.Ping AW.NilPeerGroupID [1, 1]).variant = AW.Ping ∧
    AW.sampleCodec.dec
      (AW.NewMessage AW.V1 AW.Ping AW.NilPeerGroupID [1, 1]).body
      = some AW.samplePeerA ∧
    ¬ AW.samplePeerA.pid = AW.sampleSt.dht.me.pid ∧
    (((AW.sampleSt.dht.updatePeerAddress AW.sampleCodec AW.samplePeerA).1
        = false →
      AW.pingPonger.acceptPing AW.sampleCodec false AW.sampleSt
        (AW.NewMessage AW.V1 AW.Ping AW.NilPeerGroupID [1, 1])
        = (.ok (), AW.sampleSt)) ∧
     ((AW.pingPonger.acceptPing AW.sampleCodec false AW.sampleSt
        (AW.NewMessage AW.V1 AW.Ping AW.NilPeerGroupID [1, 1])).2.outbox
        ≠ AW.sampleSt.outbox →
      (AW.sampleSt.dht.updatePeerAddress AW.sampleCodec AW.samplePeerA).1
        = true)) :=
  ⟨rfl, rfl, rfl, by decide,
    C4_accept_ping_noop_update AW.sampleCodec false AW.sampleSt _
      AW.samplePeerA rfl rfl rfl (by decide)⟩

/-- C5: Any message whose version is not V1 is rejected by both
`AcceptPing` and `AcceptPong` with `ErrMessageVersionIsNotSupported`
carrying that version, and the state (DHT, outbox, events) is untouched. -/
theorem C5_unsupported_version (c : AW.Codec) (ctxDone : Bool)
    (st : AW.PPState) (m : AW.Message) (hv : m.version ≠ AW.V1) :
    AW.pingPonger.acceptPing c ctxDone st m
      = (.error (.versionNotSupported m.version), st) ∧
    AW.pingPonger.acceptPong c ctxDone st m
      = (.error (.versionNotSupported m.version), st) := by
  constructor
  · simp [AW.pingPonger.acceptPing, hv]
  · simp [AW.pingPonger.acceptPong, hv]

theorem C5_witness :
    (AW.NewMessage 2 AW.Pong AW.NilPeerGroupID [1, 1]).version ≠ AW.V1 ∧
    (AW.pingPonger.acceptPing AW.sampleCodec false AW.sampleSt
        (AW.NewMessage 2 AW.Pong AW.NilPeerGroupID [1, 1])
        = (.error (.versionNotSupported 2), AW.sampleSt) ∧
     AW.pingPonger.acceptPong AW.sampleCodec false AW.sampleSt
        (AW.NewMessage 2 AW.Pong AW.NilPeerGroupID [1, 1])
        = (.error (.versionNotSupported 2), AW.sampleSt)) :=
  ⟨by decide,
    C5_unsupported_version AW.sampleCodec false AW.sampleSt _ (by decide)⟩

/-- C6: With the context alive, `propagatePing` enqueues exactly one
message carrying the original Ping body to every address in the DHT
snapshot except the one whose PeerId equals the introducer's, in snapshot
order, and returns nil; with the context done no message is enqueued and
the last per-peer send error (`ctx.Err()`) is returned whenever at least
one non-introducer peer exists. -/
theorem C6_propagate_ping (st : AW.PPState) (sender : Nat) (body : List Nat)
    (hne : st.dht.peerAddresses ≠ []) :
    AW.pingPonger.propagatePing false st sender body
      = (.ok (), { st with outbox := st.outbox ++ (st.dht.peerAddresses.filter (fun a => a.pid != sender)).map (fun a => ⟨a, AW.NewMessage AW.V1 AW.Ping AW.NilPeerGroupID body⟩) }) ∧
    AW.pingPonger.propagatePing true st sender body
      = ((if st.dht.peerAddresses.all (fun a => a.pid == sender)
          then .ok () else .error .canceled), st) := by
  have hlen : ¬ st.dht.peerAddresses.length = 0 := by
    simpa [List.length_eq_zero] using hne
  constructor
  · simp [AW.pingPonger.propagatePing, hlen, AW.propagateLoop_ctx_alive]
  · by_cases hall : st.dht.peerAddresses.all (fun a => a.pid == sender)
    · simp [AW.pingPonger.propagatePing, hlen, AW.propagateLoop_ctx_done, hall]
    · simp [AW.pingPonger.propagatePing, hlen, AW.propagateLoop_ctx_done, hall]

theorem C6_witness :
    AW.sampleSt.dht.peerAddresses ≠ [] ∧
    (AW.pingPonger.propagatePing false AW.sampleSt 1 [9]
      = (.ok (), { AW.sampleSt with outbox := AW.sampleSt.outbox ++ (AW.sampleSt.dht.peerAddresses.filter (fun a => a.pid != 1)).map (fun a => ⟨a, AW.NewMessage AW.V1 AW.Ping AW.NilPeerGroupID [9]⟩) }) ∧
     AW.pingPonger.propagatePing true AW.sampleSt 1 [9]
      = ((if AW.sampleSt.dht.peerAddresses.all (fun a => a.pid == 1)
          then .ok () else .error .canceled), AW.sampleSt)) :=
  ⟨by decide, C6_propagate_ping AW.sampleSt 1 [9] (by decide)⟩

/-- C8: Inbound dispatch routes by `Message.variant` — Ping, Pong, Cast,
Multicast and Broadcast each to their handler's accept — and any other
variant value produces an "unexpected variant" error naming the variant,
with no handler called. -/
theorem C8_dispatch (m : AW.Message) :
    (m.variant = AW.Ping →
      AW.receiveMessageOnTheWire m = .ok .acceptPing) ∧
    (m.variant = AW.Pong →
      AW.receiveMessageOnTheWire m = .ok .acceptPong) ∧
    (m.variant = AW.Cast →
      AW.receiveMessageOnTheWire m = .ok .acceptCast) ∧
    (m.variant = AW.Multicast →
      AW.receiveMessageOnTheWire m = .ok .acceptMulticast) ∧
    (m.variant = AW.Broadcast →
      AW.receiveMessageOnTheWire m = .ok .acceptBroadcast) ∧
    (m.variant ≠ AW.Ping → m.variant ≠ AW.Pong → m.variant ≠ AW.Cast →
     m.variant ≠ AW.Multicast → m.variant ≠ AW.Broadcast →
      AW.receiveMessageOnTheWire m
        = .error (.unexpectedVariant m.variant)) := by
  refine ⟨fun h => ?_, fun h => ?_, fun h => ?_, fun h => ?_, fun h => ?_,
    fun h1 h2 h3 h4 h5 => ?_⟩ <;>
    simp_all [AW.receiveMessageOnTheWire, AW.Ping, AW.Pong, AW.Cast,
      AW.Multicast, AW.Broadcast]

theorem C8_witness :
    ((AW.NewMessage AW.V1 AW.Ping AW.NilPeerGroupID []).variant = AW.Ping ∧
     AW.receiveMessageOnTheWire (AW.NewMessage AW.V1 AW.Ping AW.NilPeerGroupID [])
      = .ok .acceptPing) ∧
    ((AW.NewMessage AW.V1 9 AW.NilPeerGroupID []).variant ≠ AW.Ping ∧
     AW.receiveMessageOnTheWire (AW.NewMessage AW.V1 9 AW.NilPeerGroupID [])
      = .error (.unexpectedVariant 9)) :=
  ⟨⟨rfl, (C8_dispatch _).1 rfl⟩,
   ⟨by decide, (C8_dispatch _).2.2.2.2.2 (by decide) (by decide) (by decide)
      (by decide) (by decide)⟩⟩

/-- C9 counterexample: for the Broadcast variant `RandomMessage` does not
build a nil-group message of length 8 + len(body) — at body = [] it sets
length 40 and uses the drawn group id, refuting the claim as stated. -/
theorem C9_counterexample :
    ¬ ((AW.RandomMessage AW.V1 AW.Broadcast [] (List.replicate 32 1)).groupID
        = AW.NilPeerGroupID ∧
       (AW.RandomMessage AW.V1 AW.Broadcast [] (List.replicate 32 1)).length
        = 8 + ([] : List Nat).length) := by decide

/-- C9 amended: `RandomMessage` gives Ping, Pong and Cast messages the nil
group and Length 8 + len(body), while Multicast AND Broadcast messages get
the randomly drawn group id and Length 40 + len(body). -/
theorem C9_random_message_amended (version variant : Nat) (body g : List Nat) :
    ((variant = AW.Ping ∨ variant = AW.Pong ∨ variant = AW.Cast) →
      (AW.RandomMessage version variant body g).groupID = AW.NilPeerGroupID ∧
      (AW.RandomMessage version variant body g).length = 8 + body.length) ∧
    ((variant = AW.Multicast ∨ variant = AW.Broadcast) →
      (AW.RandomMessage version variant body g).groupID = g ∧
      (AW.RandomMessage version variant body g).length = 40 + body.length) := by
  constructor
  · intro h
    have hv : ¬ (variant = AW.Multicast ∨ variant = AW.Broadcast) := by
      rcases h with h | h | h <;> subst h <;> decide
    simp [AW.RandomMessage, hv]
  · intro h
    simp [AW.RandomMessage, h]

theorem C9_witness :
    ((AW.RandomMessage AW.V1 AW.Cast [7] (List.replicate 32 1)).groupID
        = AW.NilPeerGroupID ∧
     (AW.RandomMessage AW.V1 AW.Cast [7] (List.replicate 32 1)).length
        = 8 + [7].length) ∧
    ((AW.RandomMessage AW.V1 AW.Broadcast [7] (List.replicate 32 1)).groupID
        = List.replicate 32 1 ∧
     (AW.RandomMessage AW.V1 AW.Broadcast [7] (List.replicate 32 1)).length
        = 40 + [7].length) :=
  ⟨(C9_random_message_amended AW.V1 AW.Cast [7] (List.replicate 32 1)).1
      (Or.inr (Or.inr rfl)),
   (C9_random_message_amended AW.V1 AW.Broadcast [7] (List.replicate 32 1)).2
      (Or.inr rfl)⟩

/-- C2: the bootstrap sweep does NOT ping every loaded address — each of
the `W` workers performs exactly one queue receive (the worker body has no
loop), so only the first `min(W, N)` addresses are pinged.  With W = 1
worker and N = 2 loaded addresses, the second address is never pinged,
contradicting the sweep's documented intent (part_001 lines 160-204). -/
theorem C2_bootstrap_drops_addresses :
    AW.bootstrapPings 1 [AW.samplePeerA, AW.samplePeerB]
      = [AW.samplePeerA.pid] ∧
    AW.samplePeerB.pid ∉ AW.bootstrapPings 1 [AW.samplePeerA, AW.samplePeerB]
    := by decide

/-- C7 counterexample: the Go computation multiplies `W * D` in `int64`,
which wraps: at W = 2^32 workers and D = 2^32 ns the product wraps to 0 and
the computed timeout is floored to 1 s, while the exact-arithmetic clamp
formula yields 2^32 ns (≈ 4.29 s), refuting the claim as stated. -/
theorem C7_counterexample :
    AW.pingTimeout (2 ^ 32) (2 ^ 32) 1 = 10 ^ 9 ∧
    AW.specPingTimeout (2 ^ 32) (2 ^ 32) 1 = 2 ^ 32 ∧
    AW.pingTimeout (2 ^ 32) (2 ^ 32) 1
      ≠ AW.specPingTimeout (2 ^ 32) (2 ^ 32) 1 := by decide

/-- C7 amended: for every W ≥ 1, D > 0, N ≥ 1 whose product W×D does not
overflow int64 (W×D < 2^63), the per-ping timeout computed during a
bootstrap sweep equals clamp(W×D/N, 1s, min(D, 30s)) — i.e.
max(1s, min(W×D/N, D, 30s)) in exact integer nanosecond arithmetic. -/
theorem C7_timeout_amended (W D N : Int) (hW : 1 ≤ W) (hD : 0 < D)
    (hN : 1 ≤ N) (hov : W * D < 2 ^ 63) :
    AW.pingTimeout W D N = AW.specPingTimeout W D N := by
  have h0 : 0 ≤ W * D := mul_nonneg (by omega) (by omega)
  have hwrap : AW.wrap64 (W * D) = W * D := by
    unfold AW.wrap64
    rw [Int.emod_eq_of_lt (by omega) (by omega)]
    ring
  unfold AW.pingTimeout AW.specPingTimeout
  rw [hwrap]
  generalize Int.tdiv (W * D) N = t0
  simp only [min_def, max_def]
  split_ifs <;> omega

theorem C7_witness :
    (1 : Int) ≤ 2 ∧ (0 : Int) < 3600 * 10 ^ 9 ∧ (1 : Int) ≤ 5 ∧
    (2 : Int) * (3600 * 10 ^ 9) < 2 ^ 63 ∧
    AW.pingTimeout 2 (3600 * 10 ^ 9) 5
      = AW.specPingTimeout 2 (3600 * 10 ^ 9) 5 :=
  ⟨by decide, by decide, by decide, by decide,
    C7_timeout_amended 2 (3600 * 10 ^ 9) 5 (by decide) (by decide)
      (by decide) (by decide)⟩
